import Mathlib

/-!
Verification development for the mat-to-npy conversion module
(dewarping_json_worker/mat_to_npy.py, class MatToNpyConverterDebug).

The embedding models numpy arrays as flat row-major element lists with an
explicit shape, and float arithmetic as exact rational arithmetic.  Python
values reaching the converter are modelled by an explicit variant type, and
exceptions by Except.  External library behaviour (h5py, scipy, numpy) is
modelled only where the code depends on it, with a comment at each such
definition naming the behaviour modelled.
-/

/-- Element type tag of an array, mirroring the numpy dtypes the module
branches on.  The module distinguishes float64/float32 (hash rounding),
the floating kinds (tolerance comparison, which in numpy also covers
float16), the object dtype (reference handling), and everything else. -/
inductive Dtype where
  | float64
  | float32
  | float16
  | int64
  | uint8
  | object_
  deriving DecidableEq, Repr

/-- String form of a dtype, as produced by str(dtype) in python. -/
def Dtype.str : Dtype → String
  | .float64 => "float64"
  | .float32 => "float32"
  | .float16 => "float16"
  | .int64 => "int64"
  | .uint8 => "uint8"
  | .object_ => "object"

/-- True for the dtypes accepted by np.issubdtype(dtype, np.floating). -/
def Dtype.isFloating : Dtype → Bool
  | .float64 => true
  | .float32 => true
  | .float16 => true
  | _ => false

/-- One stored element of an array.  Numeric values are modelled as exact
rationals; an element of an object array may instead be an h5py reference
(identified by a numeric id into the file reference table) or some other
python object. -/
inductive Scalar where
  | q (x : ℚ)
  | ref (r : Nat)
  | pyobj
  deriving DecidableEq, Repr

/-- A numpy ndarray: a shape, a dtype tag, and the elements in row-major
order (len elems = product of the shape in a well-formed array). -/
structure NDArray where
  shape : List Nat
  dtype : Dtype
  elems : List Scalar
  deriving DecidableEq, Repr

/-- Product of a shape, the number of elements of the array. -/
def prodl (l : List Nat) : Nat := l.foldl (· * ·) 1

def NDArray.size (a : NDArray) : Nat := prodl a.shape

/-- Number of axes, ndarray.ndim. -/
def NDArray.ndim (a : NDArray) : Nat := a.shape.length

/-- Row-major multi-index of flat index j in the given shape. -/
def unflattenIdx : List Nat → Nat → List Nat
  | [], _ => []
  | _ :: rest, j => (j / prodl rest) :: unflattenIdx rest (j % prodl rest)

/-- Row-major flat index of a multi-index in the given shape. -/
def flattenIdx : List Nat → List Nat → Nat
  | [], _ => 0
  | _ :: rest, [] => prodl rest * 0
  | _ :: rest, i :: is => i * prodl rest + flattenIdx rest is

/-- Transpose over all axes (ndarray.T): the shape is reversed and element
at multi-index i of the result is the element at multi-index reverse i of
the argument. -/
def transposeAll (a : NDArray) : NDArray :=
  { shape := a.shape.reverse
    dtype := a.dtype
    elems := (List.range a.size).map fun j =>
      a.elems.getD (flattenIdx a.shape (unflattenIdx a.shape.reverse j).reverse) (Scalar.q 0) }

/-- Relative tolerance 1e-10 used throughout compare_matrices, and the
denominator stabiliser of the relative difference. -/
def qtol : ℚ := 1 / 10000000000

/-- Default absolute tolerance of np.allclose (1e-8), left in force by the
call np.allclose(mat_transposed, npy_data, rtol=1e-10). -/
def atolNp : ℚ := 1 / 100000000

/-- Rounding of np.round: round half to even. -/
def rhe (x : ℚ) : ℤ :=
  let f := ⌊x⌋
  let r := x - (f : ℚ)
  if r < 1 / 2 then f
  else if 1 / 2 < r then f + 1
  else if f % 2 = 0 then f else f + 1

/-- np.round(x, decimals=6). -/
def round6 (x : ℚ) : ℚ := ((rhe (x * 1000000) : ℤ) : ℚ) / 1000000

/-- Element-wise 6-decimal rounding; non-numeric elements are unchanged. -/
def roundScalar : Scalar → Scalar
  | .q x => .q (round6 x)
  | s => s

/-- Digest returned by compute_array_hash.  The code hashes tobytes() of
either the 6-decimal-rounded array (float64/float32) or the raw array with
md5 truncated to 8 hex characters; the digest is modelled as the byte
content itself (dtype tag plus element list), i.e. md5 is modelled as an
injective function of the hashed bytes. -/
inductive HashVal where
  | floatBytes (dt : Dtype) (l : List Scalar)
  | rawBytes (dt : Dtype) (l : List Scalar)
  deriving DecidableEq, Repr

/-- compute_array_hash: float64/float32 arrays are hashed after rounding to
6 decimals, all other arrays from their raw bytes. -/
def compute_array_hash (a : NDArray) : HashVal :=
  if a.dtype = .float64 ∨ a.dtype = .float32 then
    .floatBytes a.dtype (a.elems.map roundScalar)
  else
    .rawBytes a.dtype a.elems

/-- Relative difference of one element pair as computed in compare_matrices:
abs(mat - npy) / (abs(mat) + 1e-10). -/
def relDiff (m n : ℚ) : ℚ := |m - n| / (|m| + qtol)

/-- Numeric view of an element list; none if any element is not a plain
number (arithmetic on such an array raises in numpy). -/
def allQ (l : List Scalar) : Option (List ℚ) :=
  l.mapM fun s => match s with | .q x => some x | _ => none

/-- np.max of a list of rationals; none on an empty list, where np.max
raises. -/
def listMax : List ℚ → Option ℚ
  | [] => none
  | x :: xs => some (xs.foldl max x)

/-- Value comparison part of compare_matrices (the branch under
shapes-equal): returns (values_equal, max_relative_difference,
comparison_error).  For floating mat dtype the maximal relative difference
is compared against 1e-10; np.max raising on an empty array, or arithmetic
raising on non-numeric elements, is caught and leaves values_equal false.
For other dtypes np.array_equal is used. -/
def valuesCheck (m n : NDArray) : Bool × Option ℚ × Bool :=
  if m.shape = n.shape then
    if m.dtype.isFloating then
      match allQ m.elems, allQ n.elems with
      | some xs, some ys =>
        match listMax ((xs.zip ys).map fun p => relDiff p.1 p.2) with
        | some mx => (decide (mx < qtol), some mx, false)
        | none => (false, none, true)
      | _, _ => (false, none, true)
    else
      (decide (m.shape = n.shape ∧ m.elems = n.elems), none, false)
  else
    (false, none, false)

/-- np.allclose with rtol = 1e-10 and the default atol = 1e-8: every pair
must satisfy abs(a - b) <= atol + rtol * abs(b). -/
def allcloseQ (xs ys : List ℚ) : Bool :=
  (xs.zip ys).all fun p => decide (|p.1 - p.2| ≤ atolNp + qtol * |p.2|)

/-- Transposition check of compare_matrices: only evaluated when both
arrays are 2-dimensional and mat.shape equals npy.T.shape; floating dtypes
use np.allclose(mat.T, npy, rtol=1e-10) (default atol in force), others
np.array_equal; an exception inside the check is swallowed, leaving the
flag false. -/
def transposedCheck (m n : NDArray) : Bool :=
  if m.ndim = 2 ∧ n.ndim = 2 then
    if m.shape = (transposeAll n).shape then
      if m.dtype.isFloating then
        match allQ (transposeAll m).elems, allQ n.elems with
        | some xs, some ys => allcloseQ xs ys
        | _, _ => false
      else
        decide ((transposeAll m).shape = n.shape ∧ (transposeAll m).elems = n.elems)
    else false
  else false

/-- Result record of compare_matrices. -/
structure Comparison where
  shapes_equal : Bool
  dtypes_equal : Bool
  values_equal : Bool
  transposed_equal : Bool
  max_rel_diff : Option ℚ
  comparison_error : Bool
  hash_mat : HashVal
  hash_npy : HashVal
  deriving DecidableEq, Repr

/-- compare_matrices(mat_data, npy_data): shape, dtype, value, transposition
and hash comparison of two plain arrays. -/
def compare_matrices (m n : NDArray) : Comparison :=
  { shapes_equal := decide (m.shape = n.shape)
    dtypes_equal := decide (m.dtype = n.dtype)
    values_equal := (valuesCheck m n).1
    transposed_equal := transposedCheck m n
    max_rel_diff := (valuesCheck m n).2.1
    comparison_error := (valuesCheck m n).2.2
    hash_mat := compute_array_hash m
    hash_npy := compute_array_hash n }

/-- Modelled from the spec: the transposition check as the spec words it,
a purely relative tolerance of 1e-10 (no absolute term), evaluated under
the same guard as the code.  Used to compare the spec sentence against the
actual np.allclose call. -/
def transposedEqualSpec (m n : NDArray) : Bool :=
  if m.ndim = 2 ∧ n.ndim = 2 then
    if m.shape = (transposeAll n).shape then
      if m.dtype.isFloating then
        match allQ (transposeAll m).elems, allQ n.elems with
        | some xs, some ys => (xs.zip ys).all fun p => decide (|p.1 - p.2| ≤ qtol * |p.2|)
        | _, _ => false
      else
        decide ((transposeAll m).shape = n.shape ∧ (transposeAll m).elems = n.elems)
    else false
  else false

example : transposeAll ⟨[3, 2], .float64, [.q 1, .q 4, .q 2, .q 5, .q 3, .q 6]⟩ =
    ⟨[2, 3], .float64, [.q 1, .q 2, .q 3, .q 4, .q 5, .q 6]⟩ := by decide

/-- A python value as it flows through the loader and the verifier:
a numpy ndarray, an unresolved h5py reference carried through raw, a
mapping of variable name to value, or some other python object. -/
inductive PyVal where
  | nd (a : NDArray)
  | pyref (r : Nat)
  | dict (l : List (String × PyVal))
  | pyo

/-- Result of reading a dataset with dataset[()] in h5py: an ndarray, a
single h5py reference (scalar object dataset), or some other object. -/
inductive RawVal where
  | arr (a : NDArray)
  | href (r : Nat)
  | pyo
  deriving DecidableEq

/-- View of a RawVal as the python value it is. -/
def rawToPy : RawVal → PyVal
  | .arr a => .nd a
  | .href r => .pyref r
  | .pyo => .pyo

/-- Target of an h5py reference within the file: a dataset with a stored
value, or a group (or other non-dataset object). -/
inductive RefTarget where
  | dset (v : RawVal)
  | group
  deriving DecidableEq

/-- One top-level entry of an hdf5-based (v7.3) file, as h5py exposes it:
whether f[key] is a Dataset, whether its declared dtype is the object
dtype, its shape and dtype string as reported by the Dataset object, and
the stored value dataset[()]. -/
structure H5Entry where
  isDataset : Bool
  dtypeIsObject : Bool
  shape : List Nat
  dtypeStr : String
  raw : RawVal
  deriving DecidableEq

/-- An hdf5-based file: its named top-level entries and its reference
table (resolution of h5py references). -/
structure H5File where
  entries : List (String × H5Entry)
  refs : List (Nat × RefTarget)

/-- Resolution of reference r in the file; none models a stale reference,
on which f[r] raises. -/
def lookupRef (hf : H5File) (r : Nat) : Option RefTarget :=
  (hf.refs.find? fun p => p.1 = r).map Prod.snd

/-- Exception raised by h5py.File: the code catches only OSError and
IOError (one class in python 3), so the model keeps the kind.  h5py.File
raises OSError for an unreadable or non-hdf5 file but can raise other
exceptions, e.g. ValueError for a path with an embedded null byte. -/
structure H5Exc where
  isOS : Bool
  msg : String
  deriving DecidableEq

/-- A file on disk, as seen through the two readers the module uses:
h5py.File either opens it (yielding the hdf5 view) or raises, and
scipy.io.loadmat either returns its variables (dunder bookkeeping keys
included) or raises with a message.  Every observable behaviour of the
module factors through these two probes. -/
structure MatFile where
  h5 : Except H5Exc H5File
  legacy : Except String (List (String × PyVal))

/-- detect_mat_version: try h5py.File first; on OSError or IOError fall
back to scipy.io.loadmat under a bare except; any other exception from the
h5py open propagates to the caller.  Returns the version tag otherwise. -/
def detect_mat_version (f : MatFile) : Except H5Exc String :=
  match f.h5 with
  | .ok _ => .ok "v7.3"
  | .error e =>
    if e.isOS then
      match f.legacy with
      | .ok _ => .ok "v7.0_or_older"
      | .error _ => .ok "unknown"
    else .error e

/-- One variable record produced by inspect_mat_file_deep. -/
structure VarRecord where
  name : String
  typeName : String
  shape : Option (List Nat)
  dtypeStr : Option String
  is_reference : Bool
  deriving DecidableEq

/-- Report of inspect_mat_file_deep; vars is the variables list of the
report. -/
structure Info where
  version : Option String
  vars : List VarRecord
  issues : List String

/-- True when a character list starts with two underscores. -/
def startsUU : List Char → Bool
  | '_' :: '_' :: _ => true
  | _ => false

/-- True for the bookkeeping keys scipy.io.loadmat adds (names starting
and ending with a double underscore), dropped by both the inspector and
the loader. -/
def isDunder (k : String) : Bool := startsUU k.data && startsUU k.data.reverse

/-- Legacy variables surviving the dunder filter. -/
def legacyVars (vars : List (String × PyVal)) : List (String × PyVal) :=
  vars.filter fun kv => !(isDunder kv.1)

/-- Variable record of one v7.3 entry: datasets report shape and dtype and
are flagged as references when the dtype is the object dtype; other
entries (groups) report neither.  The referenced_type probing of the code
only adds extra report fields and is not modelled. -/
def varRec73 (kv : String × H5Entry) : VarRecord :=
  if kv.2.isDataset then
    ⟨kv.1, "Dataset", some kv.2.shape, some kv.2.dtypeStr, kv.2.dtypeIsObject⟩
  else
    ⟨kv.1, "Group", none, none, false⟩

/-- Variable record of one legacy variable: shape and dtype are reported
when the value has them (ndarrays); loadmat is called here without
mat_dtype, which can change dtypes but not names or shapes, so the same
legacy view is reused. -/
def varRecLegacy (kv : String × PyVal) : VarRecord :=
  match kv.2 with
  | .nd a => ⟨kv.1, "ndarray", some a.shape, some a.dtype.str, false⟩
  | _ => ⟨kv.1, "object", none, none, false⟩

/-- inspect_mat_file_deep: detect the version, then enumerate the
variables under the matching reader; every exception inside is caught and
recorded as an issue. -/
def inspect_mat_file_deep (f : MatFile) : Info :=
  match detect_mat_version f with
  | .error e => ⟨none, [], ["Error inspecting file: " ++ e.msg]⟩
  | .ok version =>
    if version = "v7.3" then
      match f.h5 with
      | .ok hf =>
        ⟨some version, hf.entries.map varRec73,
          (hf.entries.filter fun kv => kv.2.isDataset && kv.2.dtypeIsObject).map
            fun kv => "Variable " ++ kv.1 ++ " is a reference (may need special handling)"⟩
      | .error e => ⟨some version, [], ["Error inspecting file: " ++ e.msg]⟩
    else
      match f.legacy with
      | .ok vars => ⟨some version, (legacyVars vars).map varRecLegacy, []⟩
      | .error m => ⟨some version, [], ["Error inspecting file: " ++ m]⟩

/-- Dereference of one element of an object array inside the try of the
loader: a reference resolving to a scalar numeric dataset yields its
number, a plain number is kept as is.  Anything else (a stale reference,
a non-dataset target, or a non-scalar dereferenced value, on which
np.array(...).reshape(raw_data.shape) raises) is modelled as a failure of
the surrounding try. -/
def derefItem (hf : H5File) : Scalar → Option ℚ
  | .q x => some x
  | .ref r =>
    match lookupRef hf r with
    | some (.dset (.arr a)) =>
      if a.shape = [] then
        match a.elems with
        | [.q x] => some x
        | _ => none
      else none
    | _ => none
  | .pyobj => none

/-- Materialisation of one dataset value (the body of the v7.3 loop before
the transposition step): object-dtype values are dereferenced, everything
else is used raw.  A scalar reference is resolved through f[ref]; this
access is outside any try, so a stale reference raises out of the loader.
An object array is dereferenced element-wise under a try; on failure the
raw value is kept with a warning.  np.array of the dereferenced scalars is
modelled as producing a float64 array of the original shape. -/
def materialize (hf : H5File) (k : String) (e : H5Entry) :
    Except String (PyVal × List String) :=
  if e.dtypeIsObject then
    match e.raw with
    | .href r =>
      match lookupRef hf r with
      | some (.dset v) => .ok (rawToPy v, [])
      | some .group => .ok (.pyref r, ["Variable " ++ k ++ " is a reference to non-dataset"])
      | none => .error ("Invalid HDF5 object reference for " ++ k)
    | .arr a =>
      if a.dtype = .object_ then
        match a.elems.mapM (derefItem hf) with
        | some qs => .ok (.nd ⟨a.shape, .float64, qs.map Scalar.q⟩, [])
        | none => .ok (.nd a, ["Could not dereference object array for " ++ k])
      else .ok (.nd a, [])
    | .pyo => .ok (.pyo, [])
  else .ok (rawToPy e.raw, [])

/-- Per-variable record appended to loaded_variables of the load metadata:
name, shape as stored before any transposition, dtype string. -/
structure MetaVar where
  name : String
  shape : List Nat
  dtype : String
  deriving DecidableEq

/-- Load metadata returned alongside the data by load_mat_correctly. -/
structure LoadMeta where
  version : String
  loaded_variables : List MetaVar
  warnings : List String
  transpose_applied : Bool
  selected_variable : String
  deriving DecidableEq

/-- Accumulator of the v7.3 load loop: the data_dict built so far (as an
ordered association list), the loaded_variables records, the warnings, and
the transpose_applied flag. -/
structure LoadSt where
  dict : List (String × PyVal)
  vars : List MetaVar
  warns : List String
  transposed : Bool

/-- Body of the v7.3 load loop for one key: non-datasets are skipped;
a dataset value is materialised, and if it is an ndarray of rank at least
2 its pre-transposition shape and dtype are recorded, it is transposed
over all axes (column-major to row-major), and transpose_applied is set;
otherwise it is stored unchanged. -/
def processEntry (hf : H5File) (st : LoadSt) (kv : String × H5Entry) :
    Except String LoadSt :=
  if kv.2.isDataset then
    match materialize hf kv.1 kv.2 with
    | .error m => .error m
    | .ok (data, ws) =>
      match data with
      | .nd a =>
        if 2 ≤ a.ndim then
          .ok ⟨st.dict ++ [(kv.1, .nd (transposeAll a))],
            st.vars ++ [⟨kv.1, a.shape, a.dtype.str⟩], st.warns ++ ws, true⟩
        else
          .ok ⟨st.dict ++ [(kv.1, .nd a)], st.vars, st.warns ++ ws, st.transposed⟩
      | d => .ok ⟨st.dict ++ [(kv.1, d)], st.vars, st.warns ++ ws, st.transposed⟩
  else .ok st

/-- The v7.3 load loop over all keys of the file. -/
def loadLoop (hf : H5File) : List (String × H5Entry) → LoadSt → Except String LoadSt
  | [], st => .ok st
  | kv :: rest, st =>
    match processEntry hf st kv with
    | .ok st1 => loadLoop hf rest st1
    | .error m => .error m

/-- First hit of a key in an association list, as a python dict lookup. -/
def lookupKey (k : String) : List (String × PyVal) → Option PyVal
  | [] => none
  | (k0, v) :: rest => if k = k0 then some v else lookupKey k rest

/-- Default variable selection: a single loaded variable is returned
directly under its name, otherwise the whole mapping is returned with
selected_variable dict. -/
def selectDefault (dict : List (String × PyVal)) : PyVal × String :=
  match dict with
  | [(k, v)] => (v, k)
  | _ => (.dict dict, "dict")

/-- Variable selection of load_mat_correctly: a requested name present in
the loaded set wins, otherwise the default selection applies. -/
def selectVar (vname : Option String) (dict : List (String × PyVal)) : PyVal × String :=
  match vname with
  | some n =>
    match lookupKey n dict with
    | some v => (v, n)
    | none => selectDefault dict
  | none => selectDefault dict

/-- Legacy-format branch of load_mat_correctly: drop the dunder
bookkeeping keys, record shape and dtype of every ndarray variable
(unchanged: scipy already returns row-major arrays, no transposition),
then select. -/
def legacyLoad (vars : List (String × PyVal)) (vname : Option String) (version : String) :
    PyVal × LoadMeta :=
  let fvars := legacyVars vars
  let metaVars := fvars.filterMap fun kv =>
    match kv.2 with
    | .nd a => some (⟨kv.1, a.shape, a.dtype.str⟩ : MetaVar)
    | _ => none
  let dv := selectVar vname fvars
  (dv.1, ⟨version, metaVars, [], false, dv.2⟩)

/-- load_mat_correctly: detect the version (a detection exception
propagates), then load under the matching reader.  The v7.3 path walks
every dataset, dereferences object values, and transposes every array of
rank at least 2 while recording its pre-transposition shape and dtype; the
legacy path (also taken for an unknown version, where loadmat then raises)
keeps arrays as loaded. -/
def load_mat_correctly (f : MatFile) (vname : Option String) :
    Except String (PyVal × LoadMeta) :=
  match detect_mat_version f with
  | .error e => .error e.msg
  | .ok version =>
    if version = "v7.3" then
      match f.h5 with
      | .ok hf =>
        match loadLoop hf hf.entries ⟨[], [], [], false⟩ with
        | .error m => .error m
        | .ok st =>
          let dv := selectVar vname st.dict
          .ok (dv.1, ⟨version, st.vars, st.warns, st.transposed, dv.2⟩)
      | .error e => .error e.msg
    else
      match f.legacy with
      | .error m => .error m
      | .ok vars => .ok (legacyLoad vars vname version)

/-- Error messages appended to the errors list of a conversion result,
one constructor per append site: "Arrays are different (not just
transposed)", the dictionary key set differences, the type mismatch
message, and the message of a caught exception. -/
inductive ErrMsg where
  | arraysDifferent
  | dictKeysDiffer (onlyMat onlyNpy : Finset String)
  | typesDiffer (tmat tnpy : String)
  | exc (msg : String)
  deriving DecidableEq

/-- Warning appended to the warnings list of a conversion result:
"Arrays differ but one is transposed of the other". -/
inductive WarnMsg where
  | arraysTransposed
  deriving DecidableEq

/-- Verification payload of a conversion result: the array comparison, the
dictionary key summary, or nothing (type-check and exception paths). -/
inductive Verif where
  | empty
  | comp (c : Comparison)
  | dictv (keys_match : Bool) (keys : Finset String)
  deriving DecidableEq

/-- Result record of convert_and_verify. -/
structure CVResult where
  success : Bool
  verification : Verif
  warnings : List WarnMsg
  errors : List ErrMsg
  traceback : Option String
  load_meta : Option LoadMeta
  deriving DecidableEq

/-- Round trip through np.save and np.load with allow_pickle.  Models the
numpy behaviour the verifier depends on: saving an ndarray and loading it
back is lossless; saving any other python value first coerces it with
np.asanyarray, which wraps it into a 0-dimensional object array, so the
load-back yields an ndarray, never a dict. -/
def np_save_load : PyVal → PyVal
  | .nd a => .nd a
  | _ => .nd ⟨[], .object_, [.pyobj]⟩

/-- Name of the python type of a value, as compared by
type(mat_data) == type(npy_data). -/
def PyVal.pyType : PyVal → String
  | .nd _ => "ndarray"
  | .dict _ => "dict"
  | .pyref _ => "Reference"
  | .pyo => "object"

/-- Key set of a loaded mapping. -/
def keyset (l : List (String × PyVal)) : Finset String :=
  (l.map Prod.fst).toFinset

/-- Comparison and classification block of convert_and_verify (stages 6
and 7): plain arrays are compared with compare_matrices and classified by
values_equal first, then transposed_equal; two mappings succeed exactly
when their key sets agree, and disagreement reports both set differences;
any other pairing succeeds exactly when the python types agree.  The load
metadata is attached to the result in every case. -/
def certify (mat npy : PyVal) (lm : LoadMeta) : CVResult :=
  match mat, npy with
  | .nd a, .nd b =>
    let c := compare_matrices a b
    if c.values_equal then ⟨true, .comp c, [], [], none, some lm⟩
    else if c.transposed_equal then ⟨false, .comp c, [.arraysTransposed], [], none, some lm⟩
    else ⟨false, .comp c, [], [.arraysDifferent], none, some lm⟩
  | .dict dm, .dict dn =>
    if keyset dm = keyset dn then ⟨true, .dictv true (keyset dm), [], [], none, some lm⟩
    else ⟨false, .empty, [],
      [.dictKeysDiffer (keyset dm \ keyset dn) (keyset dn \ keyset dm)], none, some lm⟩
  | m, n =>
    if m.pyType = n.pyType then ⟨true, .empty, [], [], none, some lm⟩
    else ⟨false, .empty, [], [.typesDiffer m.pyType n.pyType], none, some lm⟩

/-- Stages 1 to 6 of convert_and_verify under the try: inspect (the
result is unused by the code), load, save to the output path, load back,
compare and classify.  Path derivation and directory creation have no
observable effect in the model. -/
def convertStages (f : MatFile) : Except String CVResult :=
  let _fi := inspect_mat_file_deep f
  match load_mat_correctly f none with
  | .error m => .error m
  | .ok (mat_data, lm) => .ok (certify mat_data (np_save_load mat_data) lm)

/-- convert_and_verify: run the stages; any exception is caught at this
single per-file boundary, its message appended to errors, a traceback
recorded, and success left false. -/
def convert_and_verify (f : MatFile) : CVResult :=
  match convertStages f with
  | .ok r => r
  | .error m =>
    ⟨false, .empty, [], [.exc m], some ("Traceback (most recent call last): " ++ m), none⟩

/-- batch_convert_with_verification over an already-discovered file list
(paths paired with their on-disk content): an empty discovery returns the
empty result set early; otherwise every file is converted and verified in
order, one result per file, regardless of individual failures. -/
def batch_convert_with_verification (files : List (String × MatFile)) :
    List (String × CVResult) :=
  if files.isEmpty then []
  else files.map fun pf => (pf.1, convert_and_verify pf.2)

/-- The 2 by 3 matrix [[1,2,3],[4,5,6]] in row-major order. -/
def arr23row : NDArray := ⟨[2, 3], .float64, [.q 1, .q 2, .q 3, .q 4, .q 5, .q 6]⟩

/-- The same logical matrix as stored column-major in an hdf5-based file:
the raw read yields the 3 by 2 array [[1,4],[2,5],[3,6]]. -/
def arr32col : NDArray := ⟨[3, 2], .float64, [.q 1, .q 4, .q 2, .q 5, .q 3, .q 6]⟩

/-- A legacy file with one float64 variable data = [[1,2,3],[4,5,6]] next
to the loadmat bookkeeping keys. -/
def legacy23File : MatFile :=
  ⟨.error ⟨true, "file signature not found"⟩,
   .ok [("__header__", .pyo), ("__version__", .pyo), ("__globals__", .pyo),
        ("data", .nd arr23row)]⟩

/-- The hdf5 view of a v7.3 file with a single numeric dataset stored
column-major. -/
def v73hf : H5File :=
  ⟨[("data", ⟨true, false, [3, 2], "float64", .arr arr32col⟩)], []⟩

/-- An hdf5-based file with a single numeric dataset stored column-major. -/
def v73File : MatFile :=
  ⟨.ok v73hf, .error "Please use HDF reader for matlab v7.3 files"⟩

/-- A legacy file whose payload is a mapping of two variables. -/
def twoVarLegacyFile : MatFile :=
  ⟨.error ⟨true, "file signature not found"⟩,
   .ok [("__header__", .pyo),
        ("x", .nd ⟨[1], .float64, [.q 1]⟩),
        ("y", .nd ⟨[1], .float64, [.q 2]⟩)]⟩

/-- A file neither reader accepts (h5py raises OSError, loadmat raises). -/
def unreadableFile : MatFile :=
  ⟨.error ⟨true, "file signature not found"⟩, .error "Unknown mat file type"⟩

/-- The .npy file produced by a conversion, read back as an input file:
the hdf5 signature check fails with OSError and scipy.io.loadmat rejects
the npy magic, so neither reader accepts it. -/
def npyOutputFile : MatFile :=
  ⟨.error ⟨true, "file signature not found"⟩, .error "Unknown mat file type"⟩

/-- A path with an embedded null byte: h5py.File raises ValueError, which
is not an OSError. -/
def nullByteFile : MatFile :=
  ⟨.error ⟨false, "embedded null byte"⟩, .error "embedded null byte"⟩


/-- values_equal of the verification of a result, false when no array
comparison was recorded. -/
def valuesEqualOf (r : CVResult) : Bool :=
  match r.verification with
  | .comp c => c.values_equal
  | _ => false

/-- A load metadata record used as the fixed context of classification
statements. -/
def wMeta : LoadMeta := ⟨"v7.3", [], [], false, "data"⟩

/-- A one-element float array equal to itself, used to instantiate
classification statements. -/
def wArr : NDArray := ⟨[1], .float64, [.q 1]⟩

theorem certify_success_errors (mat npy : PyVal) (lm : LoadMeta) :
    (certify mat npy lm).success = true → (certify mat npy lm).errors = [] := by
  unfold certify
  cases mat <;> cases npy <;> dsimp only <;> (try split) <;> (try split) <;> simp

/-- C1.  The array classification of convert_and_verify is a three-way
case split in priority order: values_equal gives success with no warning
and no error; otherwise transposed_equal gives no success, the transposed
warning and no error; otherwise no success and the arrays-different
error. -/
theorem spec_c1 (a b : NDArray) (lm : LoadMeta) :
    ((compare_matrices a b).values_equal = true →
      (certify (.nd a) (.nd b) lm).success = true ∧
      (certify (.nd a) (.nd b) lm).warnings = [] ∧
      (certify (.nd a) (.nd b) lm).errors = []) ∧
    ((compare_matrices a b).values_equal = false →
      (compare_matrices a b).transposed_equal = true →
      (certify (.nd a) (.nd b) lm).success = false ∧
      (certify (.nd a) (.nd b) lm).warnings = [.arraysTransposed] ∧
      (certify (.nd a) (.nd b) lm).errors = []) ∧
    ((compare_matrices a b).values_equal = false →
      (compare_matrices a b).transposed_equal = false →
      (certify (.nd a) (.nd b) lm).success = false ∧
      (certify (.nd a) (.nd b) lm).warnings = [] ∧
      (certify (.nd a) (.nd b) lm).errors = [.arraysDifferent]) := by
  refine ⟨fun hv => ?_, fun hv ht => ?_, fun hv ht => ?_⟩
  · simp [certify, hv]
  · simp [certify, hv, ht]
  · simp [certify, hv, ht]

unseal Rat.add Rat.sub Rat.mul Rat.inv in
theorem spec_c1_witness :
    (compare_matrices wArr wArr).values_equal = true ∧
    (certify (.nd wArr) (.nd wArr) wMeta).success = true ∧
    (certify (.nd wArr) (.nd wArr) wMeta).errors = [] :=
  ⟨by decide, ((spec_c1 wArr wArr wMeta).1 (by decide)).1,
    ((spec_c1 wArr wArr wMeta).1 (by decide)).2.2⟩

/-- C10.  Invariant of convert_and_verify results: success implies an
empty errors list, and every caught exception leaves success false with a
recorded error. -/
theorem spec_c10 (f : MatFile) :
    ((convert_and_verify f).success = true → (convert_and_verify f).errors = []) ∧
    (∀ m, convertStages f = .error m →
      (convert_and_verify f).success = false ∧ (convert_and_verify f).errors ≠ []) := by
  constructor
  · intro hs
    cases hcs : convertStages f with
    | error m => simp [convert_and_verify, hcs] at hs ⊢
    | ok r =>
      have hr : ∃ mat lm, r = certify mat (np_save_load mat) lm := by
        unfold convertStages at hcs
        cases hl : load_mat_correctly f none with
        | error m => rw [hl] at hcs; exact absurd hcs (by simp)
        | ok p =>
          rw [hl] at hcs
          exact ⟨p.1, p.2, by cases p; simpa using hcs.symm⟩
      obtain ⟨mat, lm, rfl⟩ := hr
      have : convert_and_verify f = certify mat (np_save_load mat) lm := by
        simp [convert_and_verify, hcs]
      rw [this] at hs ⊢
      exact certify_success_errors _ _ _ hs
  · intro m hm
    simp [convert_and_verify, hm]

unseal Rat.add Rat.sub Rat.mul Rat.inv in
theorem spec_c10_witness :
    (convert_and_verify legacy23File).errors = [] ∧
    (convert_and_verify unreadableFile).success = false :=
  ⟨(spec_c10 legacy23File).1 (by decide),
    ((spec_c10 unreadableFile).2 "Unknown mat file type" rfl).1⟩

/-- C5.  An exception in any stage under the per-file try is recorded in
the result: its message lands in the errors list, a traceback is stored,
success stays false; and batch conversion still yields one result per
discovered file, each being the conversion of that file. -/
theorem spec_c5 :
    (∀ (f : MatFile) (m : String), convertStages f = .error m →
      (convert_and_verify f).errors = [.exc m] ∧
      (convert_and_verify f).traceback = some ("Traceback (most recent call last): " ++ m) ∧
      (convert_and_verify f).success = false) ∧
    (∀ files : List (String × MatFile),
      (batch_convert_with_verification files).length = files.length ∧
      ∀ p g, (p, g) ∈ files →
        (p, convert_and_verify g) ∈ batch_convert_with_verification files) := by
  constructor
  · intro f m hm
    simp [convert_and_verify, hm]
  · intro files
    unfold batch_convert_with_verification
    cases files with
    | nil => simp
    | cons x xs =>
      refine ⟨by simp, fun p g hm => ?_⟩
      simp only [List.isEmpty_cons, if_false, Bool.false_eq_true]
      exact List.mem_map_of_mem (fun pf => (pf.1, convert_and_verify pf.2)) hm

theorem spec_c5_witness :
    (convert_and_verify unreadableFile).errors = [.exc "Unknown mat file type"] ∧
    (convert_and_verify unreadableFile).success = false ∧
    (batch_convert_with_verification
      [("a.mat", unreadableFile), ("b.mat", npyOutputFile)]).length = 2 :=
  ⟨(spec_c5.1 unreadableFile "Unknown mat file type" rfl).1,
    (spec_c5.1 unreadableFile "Unknown mat file type" rfl).2.2,
    (spec_c5.2 [("a.mat", unreadableFile), ("b.mat", npyOutputFile)]).1⟩

/-- C4 counterexample: detection is not exception-free for every input
path.  A path h5py.File rejects with an exception that is not an OSError
(for example ValueError on an embedded null byte) propagates out of
detect_mat_version, because only OSError and IOError are caught there. -/
theorem spec_c4_cex :
    detect_mat_version nullByteFile = .error ⟨false, "embedded null byte"⟩ := rfl

/-- C4 as amended.  detect_mat_version returns the hdf5 tag when the hdf5
reader opens the file; when that open fails with an OSError or IOError it
falls back to the legacy reader without raising, returning the legacy tag
on success and the unknown tag on any legacy failure; but a non-OS/IO
exception from the hdf5 open propagates. -/
theorem spec_c4 (f : MatFile) :
    (∀ hf, f.h5 = .ok hf → detect_mat_version f = .ok "v7.3") ∧
    (∀ e, f.h5 = .error e → e.isOS = true →
      detect_mat_version f =
        .ok (match f.legacy with | .ok _ => "v7.0_or_older" | .error _ => "unknown")) ∧
    (∀ e, f.h5 = .error e → e.isOS = false → detect_mat_version f = .error e) := by
  refine ⟨fun hf h => ?_, fun e h hos => ?_, fun e h hos => ?_⟩
  · simp [detect_mat_version, h]
  · cases hl : f.legacy <;> simp [detect_mat_version, h, hos, hl]
  · simp [detect_mat_version, h, hos]

theorem spec_c4_witness :
    detect_mat_version v73File = .ok "v7.3" ∧
    detect_mat_version legacy23File = .ok "v7.0_or_older" ∧
    detect_mat_version unreadableFile = .ok "unknown" :=
  ⟨(spec_c4 v73File).1 _ rfl,
    (spec_c4 legacy23File).2.1 ⟨true, "file signature not found"⟩ rfl rfl,
    (spec_c4 unreadableFile).2.1 ⟨true, "file signature not found"⟩ rfl rfl⟩

unseal Rat.add Rat.sub Rat.mul Rat.inv in
/-- C7 counterexample: a file the pipeline converts successfully, whose
produced .npy output, fed back in as input, does not yield
values_equal = true on the second pass: neither reader accepts the npy
format, so the second pass fails at the load stage with an error and an
empty verification. -/
theorem spec_c7_cex :
    (convert_and_verify legacy23File).success = true ∧
    valuesEqualOf (convert_and_verify npyOutputFile) = false ∧
    (convert_and_verify npyOutputFile).errors ≠ [] := by decide

/-- C7 as amended.  Re-running convert_and_verify on the produced output
file does not reach the comparison at all: the format detector classifies
the npy file as unknown, the legacy reader then raises, the per-file
handler records the exception, and the result has success false, an
error, no load metadata (hence no transpose flag) and no values_equal
verdict. -/
theorem spec_c7 :
    (convert_and_verify npyOutputFile).success = false ∧
    valuesEqualOf (convert_and_verify npyOutputFile) = false ∧
    (convert_and_verify npyOutputFile).errors = [.exc "Unknown mat file type"] ∧
    (convert_and_verify npyOutputFile).load_meta = none := by decide

unseal Rat.add Rat.sub Rat.mul Rat.inv in
/-- C6.  Evaluation of the code at a dictionary payload: a legacy file
with two variables loads as a mapping, np.save wraps the mapping into a
0-dimensional object array, so the load-back is an ndarray and never a
dict; the dict key comparison branch is unreachable and the round trip
of a mapping reports the type-mismatch error with success false, even
though the key sets are identical.  The last two conjuncts evaluate the
key-comparison branch itself (certify on two dicts), showing it would
implement the claimed key-set semantics if it were reached. -/
theorem spec_c6 :
    (convert_and_verify twoVarLegacyFile).success = false ∧
    (convert_and_verify twoVarLegacyFile).errors = [.typesDiffer "dict" "ndarray"] ∧
    (certify (.dict [("x", .pyo), ("y", .pyo)]) (.dict [("y", .pyo), ("x", .pyo)]) wMeta).success
      = true ∧
    (certify (.dict [("x", .pyo), ("y", .pyo)]) (.dict [("y", .pyo), ("z", .pyo)]) wMeta).errors
      = [.dictKeysDiffer {"x"} {"z"}] := by decide

/-- Two one-element float64 arrays whose elements differ by 3e-7, less
than 1e-6, but round to different 6-decimal values (0 and 1e-6). -/
def hashArrA : NDArray := ⟨[1], .float64, [.q (4 / 10000000)]⟩

/-- Companion array of hashArrA for the hash counterexample. -/
def hashArrB : NDArray := ⟨[1], .float64, [.q (7 / 10000000)]⟩

unseal Rat.add Rat.sub Rat.mul Rat.inv in
/-- C8 counterexample: per-element differences below 1e-6 do not imply
equal hashes.  4e-7 and 7e-7 differ by 3e-7 < 1e-6, yet round to 0 and
0.000001 at 6 decimals, so the hashed byte contents differ. -/
theorem spec_c8_cex :
    |(4 / 10000000 : ℚ) - 7 / 10000000| < 1 / 1000000 ∧
    compute_array_hash hashArrA ≠ compute_array_hash hashArrB := by decide

/-- C8 as amended.  compute_array_hash is deterministic (equal arrays
give equal digests); for float64/float32 arrays of the same dtype the
digest depends only on the 6-decimal roundings, so arrays with equal
roundings collide; for floating arrays the digest differs (up to md5
collision, which the model treats as none) exactly when some rounded
element differs; and a non-float64/float32 array is hashed from its raw
bytes.  A per-element difference below 1e-6 may still change a rounding
and hence the hash. -/
theorem spec_c8 (a b : NDArray) :
    (a = b → compute_array_hash a = compute_array_hash b) ∧
    ((a.dtype = .float64 ∨ a.dtype = .float32) → a.dtype = b.dtype →
      a.elems.map roundScalar = b.elems.map roundScalar →
      compute_array_hash a = compute_array_hash b) ∧
    ((a.dtype = .float64 ∨ a.dtype = .float32) →
      (b.dtype = .float64 ∨ b.dtype = .float32) →
      a.elems.map roundScalar ≠ b.elems.map roundScalar →
      compute_array_hash a ≠ compute_array_hash b) ∧
    (¬(a.dtype = .float64 ∨ a.dtype = .float32) →
      compute_array_hash a = .rawBytes a.dtype a.elems) := by
  refine ⟨fun h => by rw [h], fun hfa hdt hr => ?_, fun hfa hfb hr => ?_, fun hnf => ?_⟩
  · simp only [compute_array_hash, if_pos hfa, if_pos (hdt ▸ hfa), hr, hdt]
  · simp only [compute_array_hash, if_pos hfa, if_pos hfb]
    intro hcontra
    exact hr (by injection hcontra)
  · simp only [compute_array_hash, if_neg hnf]

unseal Rat.add Rat.sub Rat.mul Rat.inv in
theorem spec_c8_witness :
    compute_array_hash hashArrA = compute_array_hash hashArrA ∧
    compute_array_hash hashArrA ≠ compute_array_hash hashArrB ∧
    compute_array_hash ⟨[1], .int64, [.q 3]⟩ = .rawBytes .int64 [.q 3] :=
  ⟨(spec_c8 hashArrA hashArrA).1 rfl,
    (spec_c8 hashArrA hashArrB).2.2.1 (Or.inl rfl) (Or.inl rfl) (by decide),
    (spec_c8 ⟨[1], .int64, [.q 3]⟩ ⟨[1], .int64, [.q 3]⟩).2.2.2 (by decide)⟩

unseal Rat.add Rat.sub Rat.mul Rat.inv in
/-- C3 counterexample: the transposition check is not a pure relative
tolerance of 1e-10.  For mat = [[0]] and npy = [[1e-9]] the relative
difference is enormous (values_equal is false, and a purely relative
transposition check fails too), yet np.allclose with its default absolute
tolerance 1e-8 accepts the pair, so the code sets transposed_equal. -/
theorem spec_c3_cex :
    (compare_matrices ⟨[1, 1], .float64, [.q 0]⟩
        ⟨[1, 1], .float64, [.q (1 / 1000000000)]⟩).values_equal = false ∧
    (compare_matrices ⟨[1, 1], .float64, [.q 0]⟩
        ⟨[1, 1], .float64, [.q (1 / 1000000000)]⟩).transposed_equal = true ∧
    transposedEqualSpec ⟨[1, 1], .float64, [.q 0]⟩
        ⟨[1, 1], .float64, [.q (1 / 1000000000)]⟩ = false := by decide

/-- C3 as amended.  For equal-shape arrays with numeric elements:
floating source dtype gives values_equal exactly when the maximum of
abs(mat - npy) / (abs(mat) + 1e-10) over all elements is below 1e-10,
non-floating dtypes give exact element equality; the transposition check
runs only when both arrays are 2-dimensional with mat.shape equal to
npy.T.shape, and then uses np.allclose semantics for floating dtypes,
abs(x - y) <= 1e-8 + 1e-10 * abs(y) per element (rtol 1e-10 together with
the numpy default absolute tolerance 1e-8, not a pure relative
tolerance), and exact equality for non-floating dtypes. -/
theorem spec_c3 (m n : NDArray) :
    (∀ xs ys mx, m.shape = n.shape → m.dtype.isFloating = true →
      allQ m.elems = some xs → allQ n.elems = some ys →
      listMax ((xs.zip ys).map fun p => relDiff p.1 p.2) = some mx →
      ((compare_matrices m n).values_equal = true ↔ mx < qtol)) ∧
    (m.shape = n.shape → m.dtype.isFloating = false →
      ((compare_matrices m n).values_equal = true ↔ m.elems = n.elems)) ∧
    (¬(m.ndim = 2 ∧ n.ndim = 2 ∧ m.shape = (transposeAll n).shape) →
      (compare_matrices m n).transposed_equal = false) ∧
    (∀ xs ys, m.ndim = 2 → n.ndim = 2 → m.shape = (transposeAll n).shape →
      m.dtype.isFloating = true →
      allQ (transposeAll m).elems = some xs → allQ n.elems = some ys →
      ((compare_matrices m n).transposed_equal = true ↔
        ∀ p ∈ xs.zip ys, |p.1 - p.2| ≤ atolNp + qtol * |p.2|)) ∧
    (m.ndim = 2 → n.ndim = 2 → m.shape = (transposeAll n).shape →
      m.dtype.isFloating = false →
      ((compare_matrices m n).transposed_equal = true ↔
        (transposeAll m).shape = n.shape ∧ (transposeAll m).elems = n.elems)) := by
  refine ⟨fun xs ys mx hsh hfl hxs hys hmx => ?_, fun hsh hnf => ?_,
    fun hno => ?_, fun xs ys h2m h2n hshc hfl hxs hys => ?_,
    fun h2m h2n hshc hnf => ?_⟩
  · simp [compare_matrices, valuesCheck, hsh, hfl, hxs, hys, hmx]
  · simp [compare_matrices, valuesCheck, hsh, hnf]
  · by_cases h1 : m.ndim = 2 ∧ n.ndim = 2
    · have hC : ¬ m.shape = (transposeAll n).shape := fun hc => hno ⟨h1.1, h1.2, hc⟩
      simp [compare_matrices, transposedCheck, h1, hC]
    · simp [compare_matrices, transposedCheck, h1]
  · simp [compare_matrices, transposedCheck, h2m, h2n, hshc, hfl, hxs, hys,
      allcloseQ, List.all_eq_true]
  · simp [compare_matrices, transposedCheck, h2m, h2n, hshc, hnf]

unseal Rat.add Rat.sub Rat.mul Rat.inv in
theorem spec_c3_witness :
    ((compare_matrices wArr wArr).values_equal = true ↔ (0 : ℚ) < qtol) ∧
    (compare_matrices ⟨[2], .int64, [.q 1, .q 2]⟩
        ⟨[2], .int64, [.q 1, .q 2]⟩).values_equal = true :=
  ⟨(spec_c3 wArr wArr).1 [1] [1] 0 rfl rfl (by decide) (by decide) (by decide),
    ((spec_c3 ⟨[2], .int64, [.q 1, .q 2]⟩ ⟨[2], .int64, [.q 1, .q 2]⟩).2.1
      rfl rfl).mpr rfl⟩

theorem processEntry_mono (hf : H5File) (st : LoadSt) (kv : String × H5Entry)
    (st' : LoadSt) (h : processEntry hf st kv = .ok st') :
    (∀ x, x ∈ st.dict → x ∈ st'.dict) ∧ (∀ v, v ∈ st.vars → v ∈ st'.vars) ∧
    (st.transposed = true → st'.transposed = true) := by
  unfold processEntry at h
  split at h
  · split at h
    · exact absurd h (by simp)
    · split at h
      · split at h <;>
        · injection h with h
          subst h
          refine ⟨fun x hx => ?_, fun v hv => ?_, fun ht => ?_⟩ <;>
            simp_all [List.mem_append]
      · injection h with h
        subst h
        exact ⟨fun x hx => by simp [List.mem_append, hx], fun v hv => hv, fun ht => ht⟩
  · injection h with h
    subst h
    exact ⟨fun x hx => hx, fun v hv => hv, fun ht => ht⟩

theorem loadLoop_mono (hf : H5File) : ∀ (ents : List (String × H5Entry)) (st st' : LoadSt),
    loadLoop hf ents st = .ok st' →
    (∀ x, x ∈ st.dict → x ∈ st'.dict) ∧ (∀ v, v ∈ st.vars → v ∈ st'.vars) ∧
    (st.transposed = true → st'.transposed = true) := by
  intro ents
  induction ents with
  | nil =>
    intro st st' h
    injection h with h
    subst h
    exact ⟨fun x hx => hx, fun v hv => hv, fun ht => ht⟩
  | cons kv rest ih =>
    intro st st' h
    unfold loadLoop at h
    cases hpe : processEntry hf st kv with
    | error m => rw [hpe] at h; exact absurd h (by simp)
    | ok st1 =>
      rw [hpe] at h
      obtain ⟨hd1, hv1, ht1⟩ := processEntry_mono hf st kv st1 hpe
      obtain ⟨hd2, hv2, ht2⟩ := ih st1 st' h
      exact ⟨fun x hx => hd2 x (hd1 x hx), fun v hv => hv2 v (hv1 v hv),
        fun ht => ht2 (ht1 ht)⟩

theorem loadLoop_inserts (hf : H5File) :
    ∀ (ents : List (String × H5Entry)) (st st' : LoadSt),
    loadLoop hf ents st = .ok st' →
    ∀ k e, (k, e) ∈ ents → e.isDataset = true →
    ∀ a ws, materialize hf k e = .ok (.nd a, ws) →
    (2 ≤ a.ndim → (k, PyVal.nd (transposeAll a)) ∈ st'.dict ∧
      (⟨k, a.shape, a.dtype.str⟩ : MetaVar) ∈ st'.vars ∧ st'.transposed = true) ∧
    (a.ndim < 2 → (k, PyVal.nd a) ∈ st'.dict) := by
  intro ents
  induction ents with
  | nil => intro st st' h k e hmem; cases hmem
  | cons kv rest ih =>
    intro st st' h k e hmem hds a ws hmat
    unfold loadLoop at h
    cases hpe : processEntry hf st kv with
    | error m => rw [hpe] at h; exact absurd h (by simp)
    | ok st1 =>
      rw [hpe] at h
      rcases List.mem_cons.mp hmem with heq | htail
      · subst heq
        unfold processEntry at hpe
        rw [if_pos hds, hmat] at hpe
        dsimp only at hpe
        obtain ⟨hd2, hv2, ht2⟩ := loadLoop_mono hf rest st1 st' h
        by_cases h2 : 2 ≤ a.ndim
        · rw [if_pos h2] at hpe
          injection hpe with hpe
          subst hpe
          refine ⟨fun _ => ⟨?_, ?_, ht2 rfl⟩, fun hlt => absurd h2 (by omega)⟩
          · exact hd2 _ (by simp)
          · exact hv2 _ (by simp)
        · rw [if_neg h2] at hpe
          injection hpe with hpe
          subst hpe
          exact ⟨fun h2' => absurd h2' h2, fun _ => hd2 _ (by simp)⟩
      · exact ih st1 st' h k e htail hds a ws hmat

theorem processEntry_keys (hf : H5File) (st : LoadSt) (kv : String × H5Entry)
    (st' : LoadSt) (h : processEntry hf st kv = .ok st') :
    st'.dict.map Prod.fst = st.dict.map Prod.fst ∨
    st'.dict.map Prod.fst = st.dict.map Prod.fst ++ [kv.1] := by
  unfold processEntry at h
  split at h
  · split at h
    · exact absurd h (by simp)
    · split at h
      · split at h <;>
        · injection h with h
          subst h
          simp
      · injection h with h
        subst h
        simp
  · injection h with h
    subst h
    simp

theorem loadLoop_keys (hf : H5File) : ∀ (ents : List (String × H5Entry)) (st st' : LoadSt),
    loadLoop hf ents st = .ok st' →
    ∃ l, st'.dict.map Prod.fst = st.dict.map Prod.fst ++ l ∧
      l.Sublist (ents.map Prod.fst) := by
  intro ents
  induction ents with
  | nil =>
    intro st st' h
    injection h with h
    subst h
    exact ⟨[], by simp, List.Sublist.refl _⟩
  | cons kv rest ih =>
    intro st st' h
    unfold loadLoop at h
    cases hpe : processEntry hf st kv with
    | error m => rw [hpe] at h; exact absurd h (by simp)
    | ok st1 =>
      rw [hpe] at h
      obtain ⟨l, hl, hsub⟩ := ih st1 st' h
      rcases processEntry_keys hf st kv st1 hpe with hk | hk
      · exact ⟨l, by rw [hl, hk], hsub.cons kv.1⟩
      · refine ⟨kv.1 :: l, ?_, hsub.cons₂ kv.1⟩
        rw [hl, hk, List.append_assoc]
        rfl

theorem lookupKey_of_mem : ∀ (l : List (String × PyVal)) (k : String) (v : PyVal),
    (k, v) ∈ l → (l.map Prod.fst).Nodup → lookupKey k l = some v := by
  intro l
  induction l with
  | nil => intro k v hm; cases hm
  | cons kv rest ih =>
    intro k v hm hnd
    obtain ⟨k0, v0⟩ := kv
    rcases List.mem_cons.mp hm with heq | htail
    · injection heq with h1 h2
      subst h1
      subst h2
      simp [lookupKey]
    · unfold lookupKey
      by_cases hk : k = k0
      · subst hk
        exfalso
        have : k ∈ rest.map Prod.fst := List.mem_map_of_mem Prod.fst htail
        simp at hnd
        exact hnd.1 v (by simpa using htail)
      · rw [if_neg hk]
        exact ih k v htail (by simp at hnd; exact hnd.2)

/-- Retrieval of the data returned for variable k by a load whose
selection produced value d under selected_variable sel: from the full
mapping when the whole dict was returned, or the value itself when k was
the single selected variable. -/
def returnedVar (d : PyVal) (sel : String) (k : String) : Option PyVal :=
  match d with
  | .dict l => lookupKey k l
  | v => if sel = k then some v else none

theorem returned_of_mem (dict : List (String × PyVal))
    (hnd : (dict.map Prod.fst).Nodup) (k : String) (v : PyVal)
    (hv : (k, v) ∈ dict) (hnotdict : ∀ l, v ≠ .dict l) :
    returnedVar (selectDefault dict).1 (selectDefault dict).2 k = some v := by
  cases dict with
  | nil => cases hv
  | cons x tail =>
    cases tail with
    | nil =>
      obtain ⟨k0, v0⟩ := x
      have hx : k = k0 ∧ v = v0 := by simpa using hv
      obtain ⟨rfl, rfl⟩ := hx
      cases v with
      | dict l => exact absurd rfl (hnotdict l)
      | nd a => simp [selectDefault, returnedVar]
      | pyref r => simp [selectDefault, returnedVar]
      | pyo => simp [selectDefault, returnedVar]
    | cons y rest =>
      show returnedVar (.dict (x :: y :: rest)) "dict" k = some v
      exact lookupKey_of_mem _ k v hv hnd

/-- C2.  In the v7.3 path of load_mat_correctly, every dataset variable
whose materialised value is an array of rank at least 2 is returned as the
transpose over all axes of that value, its pre-transposition shape and
dtype are recorded in the load metadata, and transpose_applied is set;
a value of rank below 2 is returned untransposed. -/
theorem spec_c2 (f : MatFile) (hf : H5File) (h5 : f.h5 = .ok hf)
    (hnd : (hf.entries.map Prod.fst).Nodup)
    (d : PyVal) (meta : LoadMeta)
    (hload : load_mat_correctly f none = .ok (d, meta)) :
    ∀ k e, (k, e) ∈ hf.entries → e.isDataset = true →
    ∀ a ws, materialize hf k e = .ok (.nd a, ws) →
    (2 ≤ a.ndim →
      returnedVar d meta.selected_variable k = some (.nd (transposeAll a)) ∧
      (⟨k, a.shape, a.dtype.str⟩ : MetaVar) ∈ meta.loaded_variables ∧
      meta.transpose_applied = true) ∧
    (a.ndim < 2 → returnedVar d meta.selected_variable k = some (.nd a)) := by
  obtain ⟨fh5, fleg⟩ := f
  dsimp only at h5
  subst h5
  unfold load_mat_correctly detect_mat_version at hload
  dsimp only at hload
  rw [if_pos rfl] at hload
  cases hll : loadLoop hf hf.entries ⟨[], [], [], false⟩ with
  | error m => rw [hll] at hload; exact absurd hload (by simp)
  | ok st =>
    rw [hll] at hload
    injection hload with hload
    injection hload with hd hmeta
    subst hd
    subst hmeta
    intro k e hmem hds a ws hmat
    have hins := loadLoop_inserts hf hf.entries _ st hll k e hmem hds a ws hmat
    have hkeys : (st.dict.map Prod.fst).Nodup := by
      obtain ⟨l, hl, hsub⟩ := loadLoop_keys hf hf.entries _ st hll
      rw [hl]
      simpa using hnd.sublist hsub
    constructor
    · intro h2
      obtain ⟨hdict, hvar, htr⟩ := hins.1 h2
      refine ⟨?_, hvar, htr⟩
      exact returned_of_mem st.dict hkeys k _ hdict fun l h => PyVal.noConfusion h
    · intro hlt
      exact returned_of_mem st.dict hkeys k _ (hins.2 hlt) fun l h => PyVal.noConfusion h

/-- Load metadata produced for v73File. -/
def v73meta : LoadMeta := ⟨"v7.3", [⟨"data", [3, 2], "float64"⟩], [], true, "data"⟩

theorem spec_c2_witness :
    load_mat_correctly v73File none = .ok (.nd (transposeAll arr32col), v73meta) ∧
    (returnedVar (.nd (transposeAll arr32col)) v73meta.selected_variable "data"
        = some (.nd (transposeAll arr32col)) ∧
      (⟨"data", [3, 2], "float64"⟩ : MetaVar) ∈ v73meta.loaded_variables ∧
      v73meta.transpose_applied = true) ∧
    transposeAll arr32col = ⟨[2, 3], .float64, [.q 1, .q 2, .q 3, .q 4, .q 5, .q 6]⟩ :=
  ⟨rfl,
    (spec_c2 v73File v73hf rfl (by decide) (.nd (transposeAll arr32col)) v73meta rfl
      "data" ⟨true, false, [3, 2], "float64", .arr arr32col⟩ (by decide) rfl
      arr32col [] rfl).1 (by decide),
    by decide⟩
theorem processEntry_vars_inv (hf : H5File) (st : LoadSt) (kv : String × H5Entry)
    (st' : LoadSt) (h : processEntry hf st kv = .ok st')
    (hlen : ∀ mv ∈ st.vars, 2 ≤ mv.shape.length)
    (hinv : st.vars = [] ∨ st.transposed = true) :
    (∀ mv ∈ st'.vars, 2 ≤ mv.shape.length) ∧ (st'.vars = [] ∨ st'.transposed = true) := by
  unfold processEntry at h
  split at h
  · split at h
    · exact absurd h (by simp)
    · split at h
      · split at h
        · rename_i a h2
          injection h with h
          subst h
          refine ⟨fun mv hmv => ?_, Or.inr rfl⟩
          rcases List.mem_append.mp hmv with hold | hnew
          · exact hlen mv hold
          · simp at hnew
            subst hnew
            exact h2
        · injection h with h
          subst h
          exact ⟨hlen, hinv⟩
      · injection h with h
        subst h
        exact ⟨hlen, hinv⟩
  · injection h with h
    subst h
    exact ⟨hlen, hinv⟩

theorem loadLoop_vars_inv (hf : H5File) :
    ∀ (ents : List (String × H5Entry)) (st st' : LoadSt),
    loadLoop hf ents st = .ok st' →
    (∀ mv ∈ st.vars, 2 ≤ mv.shape.length) → (st.vars = [] ∨ st.transposed = true) →
    (∀ mv ∈ st'.vars, 2 ≤ mv.shape.length) ∧ (st'.vars = [] ∨ st'.transposed = true) := by
  intro ents
  induction ents with
  | nil =>
    intro st st' h hlen hinv
    injection h with h
    subst h
    exact ⟨hlen, hinv⟩
  | cons kv rest ih =>
    intro st st' h hlen hinv
    unfold loadLoop at h
    cases hpe : processEntry hf st kv with
    | error m => rw [hpe] at h; exact absurd h (by simp)
    | ok st1 =>
      rw [hpe] at h
      obtain ⟨hlen1, hinv1⟩ := processEntry_vars_inv hf st kv st1 hpe hlen hinv
      exact ih st1 st' h hlen1 hinv1

theorem pairs_eq_of_fst {β : Type} : ∀ (l : List (String × β)),
    (l.map Prod.fst).Nodup → ∀ x ∈ l, ∀ y ∈ l, x.1 = y.1 → x = y := by
  intro l
  induction l with
  | nil => intro _ x hx; cases hx
  | cons z tail ih =>
    intro hnd x hx y hy hxy
    have hz : z.1 ∉ tail.map Prod.fst := (List.nodup_cons.mp hnd).1
    have htl : (tail.map Prod.fst).Nodup := (List.nodup_cons.mp hnd).2
    rcases List.mem_cons.mp hx with rfl | hx' <;> rcases List.mem_cons.mp hy with rfl | hy'
    · rfl
    · exact absurd (hxy ▸ List.mem_map_of_mem Prod.fst hy') hz
    · exact absurd (hxy ▸ List.mem_map_of_mem Prod.fst hx') hz
    · exact ih htl x hx' y hy' hxy

theorem varRecLegacy_name (kv : String × PyVal) : (varRecLegacy kv).name = kv.1 := by
  obtain ⟨k, v⟩ := kv
  cases v <;> rfl

/-- Keys of the post-filter legacy variable set are pairwise distinct
(scipy returns a python dict, so this always holds of real files). -/
def legacyKeysNodup (f : MatFile) : Prop :=
  ∀ l, f.legacy = .ok l → ((legacyVars l).map Prod.fst).Nodup

/-- C9.  For every variable with both an inspection record and a load
metadata record, the inspected shape equals the shape in the load
metadata, except when the layout transform was applied to that variable,
in which case the metadata holds the pre-transform shape of a rank-2-or-
higher value and the transpose_applied flag is set, explaining the
discrepancy. -/
theorem spec_c9 (f : MatFile) (d : PyVal) (meta : LoadMeta)
    (hnd : legacyKeysNodup f)
    (hload : load_mat_correctly f none = .ok (d, meta)) :
    ∀ mv ∈ meta.loaded_variables, ∀ vr ∈ (inspect_mat_file_deep f).vars,
      vr.name = mv.name →
      vr.shape = some mv.shape ∨
      (meta.transpose_applied = true ∧ 2 ≤ mv.shape.length) := by
  obtain ⟨fh5, fleg⟩ := f
  cases fh5 with
  | ok hf =>
    unfold load_mat_correctly detect_mat_version at hload
    dsimp only at hload
    rw [if_pos rfl] at hload
    cases hll : loadLoop hf hf.entries ⟨[], [], [], false⟩ with
    | error m => rw [hll] at hload; exact absurd hload (by simp)
    | ok st =>
      rw [hll] at hload
      injection hload with hload
      injection hload with hd hmeta
      subst hd
      subst hmeta
      intro mv hmv vr hvr hname
      have hinv := loadLoop_vars_inv hf hf.entries _ st hll (by simp) (Or.inl rfl)
      right
      dsimp only at hmv ⊢
      refine ⟨?_, hinv.1 mv hmv⟩
      rcases hinv.2 with hnil | htr
      · rw [hnil] at hmv; cases hmv
      · exact htr
  | error e =>
    obtain ⟨eos, emsg⟩ := e
    cases eos with
    | false =>
      unfold load_mat_correctly detect_mat_version at hload
      simp at hload
    | true =>
      cases fleg with
      | error m =>
        unfold load_mat_correctly detect_mat_version at hload
        simp at hload
      | ok vars =>
        unfold load_mat_correctly detect_mat_version at hload
        simp only [H5Exc.isOS] at hload
        rw [if_pos trivial] at hload
        dsimp only at hload
        rw [if_neg (by decide)] at hload
        unfold legacyLoad at hload
        injection hload with hload
        injection hload with hd hmeta
        subst hd
        subst hmeta
        intro mv hmv vr hvr hname
        left
        dsimp only at hmv
        rw [List.mem_filterMap] at hmv
        obtain ⟨kv, hkv, hg⟩ := hmv
        have hvars : (inspect_mat_file_deep ⟨.error ⟨true, emsg⟩, .ok vars⟩).vars
            = (legacyVars vars).map varRecLegacy := by
          unfold inspect_mat_file_deep detect_mat_version
          dsimp only
          rw [if_pos rfl]
          dsimp only
          rw [if_neg (by decide)]
        rw [hvars, List.mem_map] at hvr
        obtain ⟨kv', hkv', rfl⟩ := hvr
        cases hkv2 : kv.2 with
        | nd a =>
          rw [hkv2] at hg
          injection hg with hg
          subst hg
          dsimp only at hname ⊢
          rw [varRecLegacy_name] at hname
          have hkk : kv' = kv :=
            pairs_eq_of_fst (legacyVars vars) (hnd vars rfl) kv' hkv' kv hkv hname
          subst hkk
          have : kv'.2 = PyVal.nd a := hkv2
          unfold varRecLegacy
          rw [this]
        | pyref r => rw [hkv2] at hg; exact absurd hg (by simp)
        | dict l => rw [hkv2] at hg; exact absurd hg (by simp)
        | pyo => rw [hkv2] at hg; exact absurd hg (by simp)

/-- Load metadata produced for legacy23File. -/
def legacyMeta : LoadMeta :=
  ⟨"v7.0_or_older", [⟨"data", [2, 3], "float64"⟩], [], false, "data"⟩

theorem spec_c9_witness :
    (⟨"data", "ndarray", some [2, 3], some "float64", false⟩ : VarRecord).shape
      = some ((⟨"data", [2, 3], "float64"⟩ : MetaVar).shape) ∨
    (legacyMeta.transpose_applied = true ∧
      2 ≤ ((⟨"data", [2, 3], "float64"⟩ : MetaVar).shape).length) :=
  spec_c9 legacy23File (.nd arr23row) legacyMeta
    (fun l h => (Except.ok.inj h) ▸ (by decide)) rfl
    ⟨"data", [2, 3], "float64"⟩ (by decide)
    ⟨"data", "ndarray", some [2, 3], some "float64", false⟩ (by decide) rfl
